import Mathlib

/-!
Verification of the qualprep data-preparation toolkit
(`src/qualprep/qualprepfunctions.py`) against its natural-language
specification.

The embedding is shallow: a pandas cell is a `Value` (string, int, float
NaN, non-NaN float, or Python's `None`), a DataFrame is a `Dataset`
(ordered column labels plus ordered rows), and every fallible source
function returns `Except PyError`.  Python loops are embedded as
structural recursions over the row list, in source order.  Behaviour of
the pandas library that the source relies on (groupby, merge,
drop_duplicates, string-named aggregations) is embedded to the extent the
claims exercise it; each such definition carries a comment noting its
scope.
-/

namespace Qualprep

/-- A dynamically-typed pandas cell.  `vnan` is the float NaN missing
marker; `vfloat` is a non-NaN float (modelled as a rational, no float
rounding is exercised by any claim); `vnone` is Python's `None`. -/
inductive Value where
  | vstr : String → Value
  | vint : Int → Value
  | vnan : Value
  | vfloat : ℚ → Value
  | vnone : Value
deriving DecidableEq, Repr

/-- The Python exception classes the source can raise. -/
inductive PyError where
  | keyError : PyError
  | attributeError : PyError
  | typeError : PyError
deriving DecidableEq, Repr

/-- A pandas DataFrame: ordered column labels and ordered rows of cells.
Rows are rectangular in pandas; theorems that need the row length state it
as a hypothesis. -/
structure Dataset where
  cols : List String
  rows : List (List Value)
deriving DecidableEq, Repr

/-- Python `str()` of a cell.  The float rendering is approximated by the
rational's `toString`; no claim evaluates `str` on a non-NaN float. -/
def pyStr : Value → String
  | .vstr s => s
  | .vint n => toString n
  | .vnan => "nan"
  | .vfloat q => toString q
  | .vnone => "None"

/-- ASCII lowercasing over the character list (Python `str.lower` is
Unicode-aware; no claim exercises non-ASCII letters). -/
def strLower (s : String) : String := ⟨s.data.map Char.toLower⟩

/-- Python `x.lower()`: succeeds on strings, raises AttributeError on any
other cell. -/
def pyLower : Value → Except PyError String
  | .vstr s => .ok (strLower s)
  | _ => .error .attributeError

/-- Test for a string cell. -/
def isStrCell : Value → Bool
  | .vstr _ => true
  | _ => false

/-- Reading `row[col]` through `.loc[ind, col]`: KeyError when the label
is absent.  Duplicate column labels are out of scope; the first occurrence
is used. -/
def loc (cols : List String) (r : List Value) (c : String) : Except PyError Value :=
  if c ∈ cols then .ok (r.getD (cols.indexOf c) Value.vnan) else .error .keyError

/-- Helper `is_nan` from the source: `isinstance(x, float) and math.isnan(x)`.
Only the float NaN is missing; `None` and non-NaN floats are not. -/
def is_nan : Value → Bool
  | .vnan => true
  | _ => false

/-- Helper `response_length` from the source: 1 for an int, `len(x)`
otherwise.  `len` raises TypeError on floats (NaN included) and `None`. -/
def response_length : Value → Except PyError Nat
  | .vint _ => .ok 1
  | .vstr s => .ok s.length
  | _ => .error .typeError

/-- Tokenization step of `split_categorical_vars`: when
`response_length(val) > 1` the source runs `val.split(",")` (only a string
can have a length greater than one, so the AttributeError arm is
unreachable); otherwise the single token `[str(val)]`. -/
def splitTokens (val : Value) : Except PyError (List String) := do
  let n ← response_length val
  if n > 1 then
    match val with
    | .vstr s => .ok (s.splitOn ",")
    | _ => .error .attributeError
  else
    .ok [pyStr val]

/-- The `add` array of `split_categorical_vars`: a zero array of length
`len(values_and_labels)` where, for each dict key contained in the token
list, the entry at `list(keys).index(key)` is set to 1.  Since Python dict
keys are distinct, `index(key)` is the key's own enumeration position, so
the loop computes this pointwise map. -/
def markKeys (keys : List String) (tokens : List String) : List Value :=
  keys.map (fun k => Value.vint (if tokens.contains k then 1 else 0))

/-- Row loop of `split_categorical_vars` over the series, in order: a NaN
value yields the all-zero row; otherwise tokenize and mark the dict keys. -/
def splitRows (keys : List String) : List Value → Except PyError (List (List Value))
  | [] => .ok []
  | val :: rest => do
    let row ←
      if is_nan val then
        .ok (List.replicate keys.length (Value.vint 0))
      else do
        let tokens ← splitTokens val
        .ok (markKeys keys tokens)
    let rest' ← splitRows keys rest
    .ok (row :: rest')

/-- Source `split_categorical_vars`: one binary column per
`values_and_labels` entry (columns labelled by the dict's values, in dict
order), one output row per input series element. -/
def split_categorical_vars (series : List Value) (values_and_labels : List (String × String)) :
    Except PyError Dataset := do
  let rows ← splitRows (values_and_labels.map (·.1)) series
  .ok { cols := values_and_labels.map (·.2), rows := rows }

/-- Restatement of the specified per-row behaviour of the splitter, used to
compare the source embedding against the spec's words: a float NaN row is
all-zero; any other row has a 1 exactly in the columns whose key occurs
among the value's comma-split tokens (a scalar integer, or a string of
length at most one, is a single token). -/
def splitRowSpec (values_and_labels : List (String × String)) (v : Value) : List Value :=
  match v with
  | .vnan => List.replicate values_and_labels.length (Value.vint 0)
  | .vstr s =>
      let tokens := if s.length > 1 then s.splitOn "," else [s]
      values_and_labels.map (fun kv => Value.vint (if tokens.contains kv.1 then 1 else 0))
  | .vint n =>
      values_and_labels.map (fun kv => Value.vint (if [toString n].contains kv.1 then 1 else 0))
  | _ => []

/-- Source `replace`: one copy of the row per replacement string, with the
cell at `position` overwritten, in replacement order. -/
def replace (replace_in_object : List Value) (replacement_string : List Value)
    (position : Nat) : List (List Value) :=
  replacement_string.map (fun replstr => replace_in_object.set position replstr)

/-- Row loop of `normalize_data`, in order.  For each row: read the target
cell (KeyError if the column is absent), lowercase it (AttributeError on a
non-string), and filter the lookup rows whose `rawstring` equals the
lowered value.  No match prints the diagnostic and appends nothing; at
least one match appends one copy of the row per matched `normalized`
value.  The returned pair is (accumulated rows, printed diagnostics). -/
def normStep (cols : List String) (lookup : List (String × Value)) (var : String) :
    List (List Value) → Except PyError (List (List Value) × List String)
  | [] => .ok ([], [])
  | row :: rest => do
    let v ← loc cols row var
    let s ← pyLower v
    let replacement_string := (lookup.filter (fun p => p.1 = s)).map (·.2)
    let (rows', log) ← normStep cols lookup var rest
    if replacement_string.isEmpty then
      .ok (rows', ("No entry found for " ++ pyStr v ++
        " in normalization_info. Keep original version.") :: log)
    else
      .ok (replace row replacement_string (cols.indexOf var) ++ rows', log)

/-- Source `normalize_data`: rewrites the target column against the lookup
and rebuilds a DataFrame with the input's columns.  The second component
collects the printed diagnostics, in emission order. -/
def normalize_data (data : Dataset) (lookup : List (String × Value)) (var : String) :
    Except PyError (Dataset × List String) := do
  let (rows, log) ← normStep data.cols lookup var data.rows
  .ok ({ cols := data.cols, rows := rows }, log)

/-- Restatement of the specified expansion of one row under normalization,
used to compare the source embedding against the spec's words: a row whose
lowercased target value matches k lookup entries becomes k consecutive
copies with the target cell replaced, in lookup order; zero matches leave
zero rows (the source drops the row, see the C1 theorem). -/
def expandRowSpec (lookup : List (String × Value)) (pos : Nat) (r : List Value) :
    List (List Value) :=
  match r.getD pos Value.vnan with
  | .vstr s =>
      ((lookup.filter (fun p => p.1 = strLower s)).map (·.2)).map (fun w => r.set pos w)
  | _ => []

/-- Python dict lookup used by `repl_with_agg_string`: first matching key. -/
def dictGet (m : List (Value × Value)) (k : Value) : Option Value :=
  (m.find? (fun p => p.1 == k)).map (·.2)

/-- Row loop of `repl_with_agg_string`, in order: read the cell in `column`
(KeyError if absent), replace it by `replacement_string_dict[cell]`
(KeyError when the cell is not a key). -/
def replRows (cols : List String) (column : String) (m : List (Value × Value)) :
    List (List Value) → Except PyError (List (List Value))
  | [] => .ok []
  | row :: rest => do
    let v ← loc cols row column
    let w ← match dictGet m v with
      | some w => Except.ok w
      | none => Except.error PyError.keyError
    let rest' ← replRows cols column m rest
    .ok (row.set (cols.indexOf column) w :: rest')

/-- Source `repl_with_agg_string`: replaces every value of `column` by its
entry in the dict; an absent key raises KeyError. -/
def repl_with_agg_string (data : Dataset) (column : String) (m : List (Value × Value)) :
    Except PyError Dataset := do
  let rows ← replRows data.cols column m data.rows
  .ok { cols := data.cols, rows := rows }

/-- Numeric view of a cell; NaN and non-numeric cells have none. -/
def numVal : Value → Option ℚ
  | .vint n => some (n : ℚ)
  | .vfloat q => some q
  | _ => none

/-- Test for a numeric (int or non-NaN float) cell. -/
def isNum : Value → Bool
  | .vint _ => true
  | .vfloat _ => true
  | _ => false

/-- A cell on which the numeric reductions of the source are not modelled:
pandas object-dtype reductions over strings or `None` are outside the
claims' scope and the embedding reports them as a type error. -/
def strOrNone : Value → Bool
  | .vstr _ => true
  | .vnone => true
  | _ => false

/-- Numeric less-or-equal on cells; ints and floats compare numerically,
as in pandas. -/
def numLe (a b : Value) : Bool :=
  match a, b with
  | .vint m, .vint n => m ≤ n
  | .vint m, .vfloat q => (m : ℚ) ≤ q
  | .vfloat q, .vint n => q ≤ (n : ℚ)
  | .vfloat p, .vfloat q => p ≤ q
  | _, _ => false

/-- Numeric addition on cells; an int-int sum stays an int, as pandas
keeps integer dtype. -/
def numAdd (a b : Value) : Value :=
  match a, b with
  | .vint m, .vint n => .vint (m + n)
  | .vint m, .vfloat q => .vfloat (m + q)
  | .vfloat q, .vint n => .vfloat (q + n)
  | .vfloat p, .vfloat q => .vfloat (p + q)
  | _, _ => .vnan

/-- Series `max(skipna=True)`: maximum over the non-NaN numeric cells, NaN
when there is none. -/
def maxSkipna (l : List Value) : Except PyError Value :=
  if l.any strOrNone then .error .typeError
  else
    match l.filter isNum with
    | [] => .ok Value.vnan
    | v :: vs => .ok (vs.foldl (fun acc w => if numLe acc w then w else acc) v)

/-- Series `min(skipna=True)`. -/
def minSkipna (l : List Value) : Except PyError Value :=
  if l.any strOrNone then .error .typeError
  else
    match l.filter isNum with
    | [] => .ok Value.vnan
    | v :: vs => .ok (vs.foldl (fun acc w => if numLe w acc then w else acc) v)

/-- Source `custom_mean`: `df.mean(skipna=True)` (pandas returns a float). -/
def custom_mean (l : List Value) : Except PyError Value :=
  if l.any strOrNone then .error .typeError
  else
    match (l.filter isNum).map (fun v => (numVal v).getD 0) with
    | [] => .ok Value.vnan
    | q :: qs => .ok (Value.vfloat ((qs.foldl (· + ·) q) / (qs.length + 1 : ℚ)))

/-- Source `custom_median`: `df.median(skipna=True)` (pandas returns a
float; the median of an even count is the mean of the middle pair). -/
def custom_median (l : List Value) : Except PyError Value :=
  if l.any strOrNone then .error .typeError
  else
    match ((l.filter isNum).map (fun v => (numVal v).getD 0)).mergeSort (· ≤ ·) with
    | [] => .ok Value.vnan
    | q :: qs =>
      let sorted := q :: qs
      let n := sorted.length
      if n % 2 = 1 then .ok (Value.vfloat (sorted.getD (n / 2) 0))
      else .ok (Value.vfloat ((sorted.getD (n / 2 - 1) 0 + sorted.getD (n / 2) 0) / 2))

/-- Source `custom_max`: `df.max(skipna=True)`. -/
def custom_max (l : List Value) : Except PyError Value := maxSkipna l

/-- Source `custom_min`: `df.min(skipna=True)`. -/
def custom_min (l : List Value) : Except PyError Value := minSkipna l

/-- Pandas elementwise equality of a cell with an integer literal: ints
and floats compare numerically, NaN, `None` and strings compare unequal. -/
def eqInt (v : Value) (n : Int) : Bool :=
  match v with
  | .vint m => m == n
  | .vfloat q => q == (n : ℚ)
  | _ => false

/-- First masked assignment of the `custom_one`..`custom_six` reducers:
`df_copy[df_copy != n] = 0` (NaN compares unequal to `n`, so missing cells
become 0 here). -/
def maskNeToZero (n : Int) (l : List Value) : List Value :=
  l.map (fun v => if eqInt v n then v else Value.vint 0)

/-- Second masked assignment: `df_copy[df_copy == n] = 1`. -/
def maskEqToOne (n : Int) (l : List Value) : List Value :=
  l.map (fun v => if eqInt v n then Value.vint 1 else v)

/-- Source `custom_one`: 1 when any cell equals 1, else 0. -/
def custom_one (l : List Value) : Except PyError Value :=
  maxSkipna (maskEqToOne 1 (maskNeToZero 1 l))

/-- Source `custom_two`. -/
def custom_two (l : List Value) : Except PyError Value :=
  maxSkipna (maskEqToOne 2 (maskNeToZero 2 l))

/-- Source `custom_three`. -/
def custom_three (l : List Value) : Except PyError Value :=
  maxSkipna (maskEqToOne 3 (maskNeToZero 3 l))

/-- Source `custom_four`. -/
def custom_four (l : List Value) : Except PyError Value :=
  maxSkipna (maskEqToOne 4 (maskNeToZero 4 l))

/-- Source `custom_five`. -/
def custom_five (l : List Value) : Except PyError Value :=
  maxSkipna (maskEqToOne 5 (maskNeToZero 5 l))

/-- Source `custom_six`. -/
def custom_six (l : List Value) : Except PyError Value :=
  maxSkipna (maskEqToOne 6 (maskNeToZero 6 l))

/-- Pandas `groupby.sum()` on the non-missing numeric cells (empty sum is
0); string concatenation under object dtype is out of the claims' scope. -/
def pandasSum (l : List Value) : Except PyError Value :=
  if l.any strOrNone then .error .typeError
  else .ok ((l.filter isNum).foldl numAdd (Value.vint 0))

/-- First-occurrence deduplication, the semantics of pandas
`drop_duplicates` (which, unlike `==`, treats NaN as a duplicate of NaN;
`DecidableEq` on `Value` matches that hash-based behaviour). -/
def dedupFirst : List Value → List Value :=
  go []
where
  go (seen : List Value) : List Value → List Value
    | [] => []
    | v :: rest => if v ∈ seen then go seen rest else v :: go (v :: seen) rest

/-- A cell that pandas `groupby` drops when it appears in the grouping
column (`dropna=True` default: NaN and `None` keys form no group). -/
def missingKey : Value → Bool
  | .vnan => true
  | .vnone => true
  | _ => false

/-- Pandas `groupby.count()`: number of non-missing cells. -/
def pandasCount (l : List Value) : Except PyError Value :=
  .ok (Value.vint (l.filter (fun v => !missingKey v)).length)

/-- Pandas `groupby.nunique()`: number of distinct non-missing cells. -/
def pandasNunique (l : List Value) : Except PyError Value :=
  .ok (Value.vint (dedupFirst (l.filter (fun v => !missingKey v))).length)

/-- Modelled from pandas: a string handed to `.agg` that names a groupby
reduction method resolves to that method.  A small representative set of
the methods pandas implements is embedded; any other string raises
AttributeError (see `aggregate_col`). -/
def pandasNamedAgg (name : String) : Option (List Value → Except PyError Value) :=
  if name = "sum" then some pandasSum
  else if name = "count" then some pandasCount
  else if name = "nunique" then some pandasNunique
  else none

/-- The `if agg_function == ...` chain of `aggregate_col`, which rebinds
the string to the matching `custom_*` reducer and leaves any other string
untouched (`none` here). -/
def resolveAgg (name : String) : Option (List Value → Except PyError Value) :=
  if name = "mean" then some custom_mean
  else if name = "median" then some custom_median
  else if name = "max" then some custom_max
  else if name = "min" then some custom_min
  else if name = "one" then some custom_one
  else if name = "two" then some custom_two
  else if name = "three" then some custom_three
  else if name = "four" then some custom_four
  else if name = "five" then some custom_five
  else if name = "six" then some custom_six
  else none

/-- The values of column `c`, in row order. -/
def colValues (d : Dataset) (c : String) : List Value :=
  d.rows.map (fun r => r.getD (d.cols.indexOf c) Value.vnan)

/-- Column extraction `d[c]` with pandas's KeyError on an absent label. -/
def getCol (d : Dataset) (c : String) : Except PyError (List Value) :=
  if c ∈ d.cols then .ok (colValues d c) else .error .keyError

/-- Pandas `d.groupby(g)[c]`: for each distinct non-missing value of the
grouping column, the list of `c`-cells of the rows carrying that key.
Pandas sorts the group keys; this embedding keeps them in first-occurrence
order, which no claim observes (the aggregation merge keeps the left
frame's row order). -/
def groupby (d : Dataset) (g c : String) : Except PyError (List (Value × List Value)) :=
  if g ∈ d.cols then
    if c ∈ d.cols then
      let gi := d.cols.indexOf g
      let ci := d.cols.indexOf c
      let keys := (dedupFirst (colValues d g)).filter (fun v => !missingKey v)
      .ok (keys.map (fun k =>
        (k, (d.rows.filter (fun r => r.getD gi Value.vnan == k)).map
              (fun r => r.getD ci Value.vnan))))
    else .error .keyError
  else .error .keyError

/-- Application of a resolved reduction to every group, in group order. -/
def applyAgg (f : List Value → Except PyError Value) :
    List (Value × List Value) → Except PyError (List (Value × Value))
  | [] => .ok []
  | p :: rest => do
    let v ← f p.2
    let rest' ← applyAgg f rest
    .ok ((p.1, v) :: rest')

/-- Source `aggregate_col`: group `data` by `aggregation_column`, take
`column_to_be_aggregated`, and reduce each group with the function the
name resolves to.  A name outside the source's `if` chain is handed as a
string to pandas `.agg`, which uses the groupby method of that name when
one exists and raises AttributeError otherwise. -/
def aggregate_col (data : Dataset) (aggregation_column column_to_be_aggregated : String)
    (agg_function : String) : Except PyError (List (Value × Value)) := do
  let groups ← groupby data aggregation_column column_to_be_aggregated
  match resolveAgg agg_function with
  | some f => applyAgg f groups
  | none =>
    match pandasNamedAgg agg_function with
    | some f => applyAgg f groups
    | none => .error .attributeError

/-- The `split_info` instruction table: pandas column labels plus one row
per variable to split.  The `values_and_labels` cell is a dict literal in
the source, read back through `ast.literal_eval`; it is embedded already
parsed, parsing being an external concern no claim touches. -/
structure SplitInfo where
  cols : List String
  rows : List (String × List (String × String))
deriving DecidableEq, Repr

/-- The `aggregation_information` instruction table: pandas column labels
plus one (variable, agg_function) row per instruction. -/
structure AggInfo where
  cols : List String
  rows : List (String × String)
deriving DecidableEq, Repr

/-- Pandas `drop(columns=var)`: removes the labelled column. -/
def dropCol (d : Dataset) (var : String) : Dataset :=
  { cols := d.cols.filter (fun c => c ≠ var),
    rows := d.rows.map (fun r => ((d.cols.zip r).filter (fun p => p.1 ≠ var)).map (·.2)) }

/-- Pandas `concat(axis=1)` of two frames with identical default indexes
(the pipeline resets indexes; index alignment beyond position is out of
the claims' scope). -/
def concatCols (a b : Dataset) : Dataset :=
  { cols := a.cols ++ b.cols, rows := List.zipWith (· ++ ·) a.rows b.rows }

/-- Source `split_multiple_categorical_vars`.  The triple records, besides
the result, the post-call state of the two arguments: the source starts
from `data.copy()` and never writes `data`, but assigns
`split_info.columns = ["variable_name", "values_and_labels"]`, renaming
the caller's instruction table in place. -/
def split_multiple_categorical_vars (data : Dataset) (split_info : SplitInfo) :
    Except PyError Dataset × Dataset × SplitInfo :=
  let post := { split_info with cols := ["variable_name", "values_and_labels"] }
  let res := go data split_info.rows
  (res, data, post)
where
  go (dat : Dataset) : List (String × List (String × String)) → Except PyError Dataset
    | [] => .ok dat
    | p :: rest => do
      let series ← getCol dat p.1
      let split_variable ← split_categorical_vars series p.2
      go (concatCols (dropCol dat p.1) split_variable) rest

/-- Pandas `get_dummies(dat[dummies], prefix=dummies)`: for each listed
column (KeyError when absent), one binary column per distinct non-missing
value, labelled `col_value`.  Pandas sorts the values; first-occurrence
order is used here, which no claim observes. -/
def get_dummies (d : Dataset) : List String → Except PyError (List String × List (List Value))
  | [] => .ok ([], d.rows.map (fun _ => []))
  | c :: rest => do
    let col ← getCol d c
    let vals := (dedupFirst col).filter (fun v => !missingKey v)
    let names := vals.map (fun v => c ++ "_" ++ pyStr v)
    let cells := col.map (fun x => vals.map (fun v => Value.vint (if x == v then 1 else 0)))
    let (names', cells') ← get_dummies d rest
    .ok (names ++ names', List.zipWith (· ++ ·) cells cells')

/-- Dummy-expansion step of `aggregate_data`: when instructions flag
columns as `dummy`, one-hot encode them, append the binary columns to the
data, append a `max` instruction per binary column, and drop every
instruction whose variable is one of the flagged columns. -/
def dummyExpand (data : Dataset) (instrs : List (String × String)) :
    Except PyError (Dataset × List (String × String)) := do
  let dummies := (instrs.filter (fun p => p.2 = "dummy")).map (·.1)
  if dummies.isEmpty then
    .ok (data, instrs)
  else do
    let (dcols, drows) ← get_dummies data dummies
    let dat := { cols := data.cols ++ dcols,
                 rows := List.zipWith (· ++ ·) data.rows drows : Dataset }
    let instrs' := (instrs ++ dcols.map (fun c => (c, "max"))).filter
      (fun p => !dummies.contains p.1)
    .ok (dat, instrs')

/-- Inner merge of the running output with one instruction's per-group
result, on the grouping key: both sides carry each key at most once, so a
left row is kept (and extended by the aggregated value) exactly when its
key appears on the right, preserving the left order. -/
def mergeInner (left : List (Value × List Value)) (right : List (Value × Value)) :
    List (Value × List Value) :=
  left.filterMap (fun p =>
    ((right.find? (fun q => q.1 == p.1)).map (fun q => (p.1, p.2 ++ [q.2]))))

/-- Merge loop of `aggregate_data` over the (dummy-expanded) instruction
list, in order. -/
def aggLoop (dat : Dataset) (aggvar : String) (acc : List (Value × List Value)) :
    List (String × String) → Except PyError (List (Value × List Value))
  | [] => .ok acc
  | p :: rest => do
    let aggregated_col ← aggregate_col dat aggvar p.1 p.2
    aggLoop dat aggvar (mergeInner acc aggregated_col) rest

/-- Source `aggregate_data`.  The result rows pair each grouping key with
the aggregated values, one per instruction, in instruction order (output
column labels are not modelled; no claim observes them).  The second and
third components record the post-call state of the arguments: the source
copies `data` but assigns `aggregation_information.columns = ["variable",
"agg_function"]`, renaming the caller's instruction table in place. -/
def aggregate_data (data : Dataset) (aggregation_information : AggInfo)
    (aggregation_variable : String) :
    Except PyError (List (Value × List Value)) × Dataset × AggInfo :=
  let post := { aggregation_information with cols := ["variable", "agg_function"] }
  let res : Except PyError (List (Value × List Value)) := do
    let (dat, instrs) ← dummyExpand data aggregation_information.rows
    let keycol ← getCol dat aggregation_variable
    let keys := dedupFirst keycol
    aggLoop dat aggregation_variable (keys.map (fun k => (k, []))) instrs
  (res, data, post)

/-- Reduction of a successful Except bind, used to unfold the embedded loops. -/
@[simp] theorem exceptBind_ok {α β ε : Type} (a : α) (f : α → Except ε β) :
    (Except.ok a >>= f) = f a := rfl

/-- Reduction of a failing Except bind. -/
@[simp] theorem exceptBind_error {α β ε : Type} (e : ε) (f : α → Except ε β) :
    ((Except.error e : Except ε α) >>= f) = Except.error e := rfl

/-- A cell on which the splitter is total: a string, an int, or the float
NaN.  Any other cell raises (see the C10 theorem). -/
def safeCell : Value → Bool
  | .vstr _ => true
  | .vint _ => true
  | .vnan => true
  | _ => false

/-- Row loop of the splitter computes the specified per-row expansion on
safe cells. -/
theorem splitRows_eq_spec (vl : List (String × String)) (series : List Value)
    (h : ∀ v ∈ series, safeCell v = true) :
    splitRows (vl.map (·.1)) series = .ok (series.map (splitRowSpec vl)) := by
  induction series with
  | nil => rfl
  | cons v rest ih =>
    have hv := h v (List.mem_cons_self v rest)
    have ihr := ih (fun x hx => h x (List.mem_cons_of_mem v hx))
    cases v with
    | vstr s =>
      by_cases hs : s.length > 1 <;>
        simp [splitRows, splitTokens, response_length, is_nan, hs, ihr, markKeys,
          splitRowSpec, List.map_map, pyStr, Function.comp]
    | vint n =>
      simp [splitRows, splitTokens, response_length, is_nan, ihr, markKeys,
        splitRowSpec, List.map_map, pyStr, Function.comp]
    | vnan =>
      simp [splitRows, is_nan, ihr, splitRowSpec]
    | vfloat q => simp [safeCell] at hv
    | vnone => simp [safeCell] at hv

/-- C8: on a series of safe cells (strings, ints, float NaN),
`split_categorical_vars` succeeds and returns one binary column per
`values_and_labels` entry in map iteration order, one output row per input
row in input order; a float NaN row is all-zero, and any other row has a 1
in the column of entry (key, label) exactly when the key occurs among the
value's comma-split tokens (a scalar integer, or a string of length at
most one, being a single token); tokens outside the map cause no error. -/
theorem split_categorical_vars_spec (series : List Value) (vl : List (String × String))
    (h : ∀ v ∈ series, safeCell v = true) :
    split_categorical_vars series vl
      = .ok { cols := vl.map (·.2), rows := series.map (splitRowSpec vl) } := by
  simp [split_categorical_vars, splitRows_eq_spec vl series h]

/-- Witness for C8 at a concrete input: the spec scenario "1,3" split
against the map (1 ↦ morning, 3 ↦ evening), plus a NaN row and a scalar
int row. -/
theorem split_categorical_vars_spec_witness :
    (∀ v ∈ [Value.vstr "1,3", Value.vnan, Value.vint 3], safeCell v = true)
    ∧ split_categorical_vars [Value.vstr "1,3", Value.vnan, Value.vint 3]
        [("1", "morning"), ("3", "evening")]
      = .ok { cols := [("1", "morning"), ("3", "evening")].map (·.2),
              rows := [Value.vstr "1,3", Value.vnan, Value.vint 3].map
                (splitRowSpec [("1", "morning"), ("3", "evening")]) } :=
  ⟨by decide, split_categorical_vars_spec _ _ (by decide)⟩

/-- Row loop of the splitter raises TypeError as soon as it reaches a cell
that is neither a string, an int, nor the float NaN. -/
theorem splitRows_error (keys : List String) (series : List Value)
    (h : ∃ v ∈ series, safeCell v = false) :
    splitRows keys series = .error .typeError := by
  induction series with
  | nil => simp at h
  | cons v rest ih =>
    rcases h with ⟨x, hx, hxf⟩
    rcases List.mem_cons.mp hx with rfl | hxr
    · cases x with
      | vfloat q => simp [splitRows, splitTokens, response_length, is_nan]
      | vnone => simp [splitRows, splitTokens, response_length, is_nan]
      | vstr s => simp [safeCell] at hxf
      | vint n => simp [safeCell] at hxf
      | vnan => simp [safeCell] at hxf
    · have ihr := ih ⟨x, hxr, hxf⟩
      cases v with
      | vstr s =>
        by_cases hs : s.length > 1 <;>
          simp [splitRows, splitTokens, response_length, is_nan, hs, ihr]
      | vint n => simp [splitRows, splitTokens, response_length, is_nan, ihr]
      | vnan => simp [splitRows, is_nan, ihr]
      | vfloat q => simp [splitRows, splitTokens, response_length, is_nan]
      | vnone => simp [splitRows, splitTokens, response_length, is_nan]

/-- C10: `len()` raises TypeError on a cell that is neither a string, an
int, nor the float NaN (for example `None`, or a non-NaN float), so
`response_length` fails there, and a series containing such a cell makes
`split_categorical_vars` raise TypeError; the silent-skip policy covers
only the float NaN representation. -/
theorem split_categorical_vars_type_error (series : List Value) (vl : List (String × String))
    (h : ∃ v ∈ series, safeCell v = false) :
    (∀ v, safeCell v = false → response_length v = .error .typeError)
    ∧ split_categorical_vars series vl = .error .typeError := by
  refine ⟨fun v hv => ?_, ?_⟩
  · cases v <;> simp_all [safeCell, response_length]
  · simp [split_categorical_vars, splitRows_error _ series h]

/-- Witness for C10 at a concrete input: a series holding Python `None`
and the non-NaN float 2.5. -/
theorem split_categorical_vars_type_error_witness :
    (∃ v ∈ [Value.vnone, Value.vfloat (5 / 2)], safeCell v = false)
    ∧ (∀ v, safeCell v = false → response_length v = .error .typeError)
    ∧ split_categorical_vars [Value.vnone, Value.vfloat (5 / 2)] [("1", "a")]
        = .error .typeError :=
  ⟨⟨Value.vnone, by decide⟩,
   split_categorical_vars_type_error [Value.vnone, Value.vfloat (5 / 2)] [("1", "a")]
     ⟨Value.vnone, by decide⟩⟩

/-- Reading an existing column label yields the row's cell there. -/
theorem loc_mem (cols : List String) (r : List Value) (c : String) (h : c ∈ cols)
    (v : Value) (hv : r.getD (cols.indexOf c) Value.vnan = v) : loc cols r c = .ok v := by
  unfold loc
  rw [if_pos h, hv]

/-- Expansion of a row whose target cell is the string `s`. -/
theorem expandRowSpec_str {lookup : List (String × Value)} {pos : Nat} {r : List Value}
    {s : String} (hv : r.getD pos Value.vnan = Value.vstr s) :
    expandRowSpec lookup pos r
      = ((lookup.filter (fun p => p.1 = strLower s)).map (·.2)).map (fun w => r.set pos w) := by
  unfold expandRowSpec
  rw [hv]

/-- Row loop of the normalizer computes the specified row expansion when
the target column exists and every target cell is a string; the second
component collects one diagnostic per unmatched row, in row order. -/
theorem normStep_eq_spec (cols : List String) (lookup : List (String × Value)) (var : String)
    (rows : List (List Value)) (hvar : var ∈ cols)
    (h : ∀ r ∈ rows, isStrCell (r.getD (cols.indexOf var) Value.vnan) = true) :
    ∃ log, normStep cols lookup var rows
      = .ok (rows.flatMap (expandRowSpec lookup (cols.indexOf var)), log) := by
  induction rows with
  | nil => exact ⟨[], rfl⟩
  | cons r rest ih =>
    have hr := h r (List.mem_cons_self r rest)
    obtain ⟨log, hlog⟩ := ih (fun x hx => h x (List.mem_cons_of_mem r hx))
    cases hv : r.getD (cols.indexOf var) Value.vnan with
    | vstr s =>
      by_cases he : (lookup.filter (fun p => p.1 = strLower s)).map (·.2) = []
      · refine ⟨("No entry found for " ++ pyStr (Value.vstr s) ++
          " in normalization_info. Keep original version.") :: log, ?_⟩
        simp [normStep, loc_mem cols r var hvar _ hv, pyLower, hlog, he,
          expandRowSpec_str hv, List.isEmpty_iff]
      · refine ⟨log, ?_⟩
        simp [normStep, loc_mem cols r var hvar _ hv, pyLower, hlog, he,
          expandRowSpec_str hv, replace, List.isEmpty_iff]
    | vint n => rw [hv] at hr; simp [isStrCell] at hr
    | vnan => rw [hv] at hr; simp [isStrCell] at hr
    | vfloat q => rw [hv] at hr; simp [isStrCell] at hr
    | vnone => rw [hv] at hr; simp [isStrCell] at hr

/-- Row loop of the normalizer raises AttributeError as soon as it reaches
a row whose target cell is not a string. -/
theorem normStep_error (cols : List String) (lookup : List (String × Value)) (var : String)
    (rows : List (List Value)) (hvar : var ∈ cols)
    (h : ∃ r ∈ rows, isStrCell (r.getD (cols.indexOf var) Value.vnan) = false) :
    normStep cols lookup var rows = .error .attributeError := by
  induction rows with
  | nil => simp at h
  | cons r rest ih =>
    rcases h with ⟨x, hx, hxf⟩
    rcases List.mem_cons.mp hx with rfl | hxr
    · cases hv : x.getD (cols.indexOf var) Value.vnan with
      | vstr s => rw [hv] at hxf; simp [isStrCell] at hxf
      | vint n => simp [normStep, loc_mem cols x var hvar _ hv, pyLower]
      | vnan => simp [normStep, loc_mem cols x var hvar _ hv, pyLower]
      | vfloat q => simp [normStep, loc_mem cols x var hvar _ hv, pyLower]
      | vnone => simp [normStep, loc_mem cols x var hvar _ hv, pyLower]
    · have ihr := ih ⟨x, hxr, hxf⟩
      cases hv : r.getD (cols.indexOf var) Value.vnan with
      | vstr s => simp [normStep, loc_mem cols r var hvar _ hv, pyLower, ihr]
      | vint n => simp [normStep, loc_mem cols r var hvar _ hv, pyLower]
      | vnan => simp [normStep, loc_mem cols r var hvar _ hv, pyLower]
      | vfloat q => simp [normStep, loc_mem cols r var hvar _ hv, pyLower]
      | vnone => simp [normStep, loc_mem cols r var hvar _ hv, pyLower]

/-- C1: `normalize_data` on a one-row dataset whose target value has no
lookup entry emits the diagnostic — whose own text announces that the
original row is kept — yet returns an empty row list: the unmatched row is
dropped, not kept as the one identical output row the claim (and the
code's own message) describes. -/
theorem normalize_data_drops_unmatched_row :
    normalize_data { cols := ["org"], rows := [[Value.vstr "zzz"]] }
        [("aaa", Value.vstr "x")] "org"
      = .ok ({ cols := ["org"], rows := [] },
          ["No entry found for zzz in normalization_info. Keep original version."]) := rfl

/-- C2: when the target column exists and every row's target value is a
string, `normalize_data` succeeds and its output rows are exactly the
concatenation, in input order, of each input row's expansion: one copy per
case-insensitively matched lookup entry, emitted consecutively in lookup
entry order, identical to the input row except the target cell set to that
entry's normalized value. -/
theorem normalize_data_expansion (d : Dataset) (lookup : List (String × Value)) (var : String)
    (hvar : var ∈ d.cols)
    (h : ∀ r ∈ d.rows, isStrCell (r.getD (d.cols.indexOf var) Value.vnan) = true) :
    ∃ log, normalize_data d lookup var
      = .ok ({ cols := d.cols,
               rows := d.rows.flatMap (expandRowSpec lookup (d.cols.indexOf var)) }, log) := by
  obtain ⟨log, hlog⟩ := normStep_eq_spec d.cols lookup var d.rows hvar h
  exact ⟨log, by simp [normalize_data, hlog]⟩

/-- Witness for C2 at the spec's scenario: raw "GHA" matching two lookup
entries multiplies the row into two normalized copies, in lookup order. -/
theorem normalize_data_expansion_witness :
    ("org" ∈ ["org", "n"])
    ∧ ∃ log,
        normalize_data { cols := ["org", "n"], rows := [[Value.vstr "GHA", Value.vint 5]] }
          [("gha", Value.vstr "gila woodpecker"), ("gha", Value.vstr "gila thrasher")] "org"
        = .ok ({ cols := ["org", "n"],
                 rows := [[Value.vstr "GHA", Value.vint 5]].flatMap
                   (expandRowSpec
                     [("gha", Value.vstr "gila woodpecker"), ("gha", Value.vstr "gila thrasher")]
                     (["org", "n"].indexOf "org")) }, log) :=
  ⟨by decide,
   normalize_data_expansion
     { cols := ["org", "n"], rows := [[Value.vstr "GHA", Value.vint 5]] }
     [("gha", Value.vstr "gila woodpecker"), ("gha", Value.vstr "gila thrasher")] "org"
     (by decide) (by decide)⟩

/-- C9: when the target column exists, `normalize_data` raises
AttributeError (the lowercasing fails) as soon as some row's target value
is not a string — in particular the float NaN missing marker — instead of
applying the logged passthrough policy; and it returns a result on every
dataset whose target column holds a string in each row, so normalization
is total exactly over all-string target columns. -/
theorem normalize_data_nonstring_raises (d : Dataset) (lookup : List (String × Value))
    (var : String) (hvar : var ∈ d.cols) :
    ((∃ r ∈ d.rows, isStrCell (r.getD (d.cols.indexOf var) Value.vnan) = false) →
      normalize_data d lookup var = .error .attributeError)
    ∧ ((∀ r ∈ d.rows, isStrCell (r.getD (d.cols.indexOf var) Value.vnan) = true) →
      ∃ out, normalize_data d lookup var = .ok out) := by
  constructor
  · intro hex
    simp [normalize_data, normStep_error d.cols lookup var d.rows hvar hex]
  · intro hall
    obtain ⟨log, hlog⟩ := normStep_eq_spec d.cols lookup var d.rows hvar hall
    exact ⟨({ cols := d.cols,
              rows := d.rows.flatMap (expandRowSpec lookup (d.cols.indexOf var)) }, log),
      by simp [normalize_data, hlog]⟩

/-- Witness for C9 at a concrete input: a float NaN in the target column
raises AttributeError. -/
theorem normalize_data_nonstring_raises_witness :
    ("org" ∈ ["org"])
    ∧ normalize_data { cols := ["org"], rows := [[Value.vnan]] }
        [("gha", Value.vstr "g")] "org" = .error .attributeError :=
  ⟨by decide,
   (normalize_data_nonstring_raises { cols := ["org"], rows := [[Value.vnan]] }
       [("gha", Value.vstr "g")] "org" (by decide)).1 (by decide)⟩

/-- Row loop of the remapper raises KeyError as soon as it reaches a row
whose cell in the remapped column is not a key of the dict. -/
theorem replRows_error (cols : List String) (column : String) (m : List (Value × Value))
    (rows : List (List Value)) (hcol : column ∈ cols)
    (h : ∃ r ∈ rows, dictGet m (r.getD (cols.indexOf column) Value.vnan) = none) :
    replRows cols column m rows = .error .keyError := by
  induction rows with
  | nil => simp at h
  | cons r rest ih =>
    rcases h with ⟨x, hx, hxn⟩
    rcases List.mem_cons.mp hx with rfl | hxr
    · simp only [List.getD_eq_getElem?_getD] at hxn
      simp [replRows, loc_mem cols x column hcol _ rfl, hxn]
    · have ihr := ih ⟨x, hxr, hxn⟩
      cases hw : dictGet m (r.getD (cols.indexOf column) Value.vnan) with
      | none =>
        simp only [List.getD_eq_getElem?_getD] at hw
        simp [replRows, loc_mem cols r column hcol _ rfl, hw]
      | some w =>
        simp only [List.getD_eq_getElem?_getD] at hw
        simp [replRows, loc_mem cols r column hcol _ rfl, hw, ihr]

/-- Row loop of the remapper replaces every cell of the remapped column by
its dict entry when every cell is a key. -/
theorem replRows_ok (cols : List String) (column : String) (m : List (Value × Value))
    (rows : List (List Value)) (hcol : column ∈ cols)
    (h : ∀ r ∈ rows, (dictGet m (r.getD (cols.indexOf column) Value.vnan)).isSome = true) :
    replRows cols column m rows
      = .ok (rows.map (fun r => r.set (cols.indexOf column)
          ((dictGet m (r.getD (cols.indexOf column) Value.vnan)).getD Value.vnan))) := by
  induction rows with
  | nil => rfl
  | cons r rest ih =>
    have hr := h r (List.mem_cons_self r rest)
    have ihr := ih (fun x hx => h x (List.mem_cons_of_mem r hx))
    obtain ⟨w, hw⟩ := Option.isSome_iff_exists.mp hr
    simp only [List.getD_eq_getElem?_getD] at hw
    simp [replRows, loc_mem cols r column hcol _ rfl, hw, ihr]

/-- C5: when the remapped column exists, `repl_with_agg_string` raises
KeyError (a LookupError) as soon as some row's value in that column is not
a key of the category group map — it never silently passes an unmapped
value through — and when every value is a key it succeeds, replacing every
value in that column by its mapped group label. -/
theorem repl_with_agg_string_keyerror_or_total (d : Dataset) (column : String)
    (m : List (Value × Value)) (hcol : column ∈ d.cols) :
    ((∃ r ∈ d.rows, dictGet m (r.getD (d.cols.indexOf column) Value.vnan) = none) →
      repl_with_agg_string d column m = .error .keyError)
    ∧ ((∀ r ∈ d.rows, (dictGet m (r.getD (d.cols.indexOf column) Value.vnan)).isSome = true) →
      repl_with_agg_string d column m
        = .ok { cols := d.cols,
                rows := d.rows.map (fun r => r.set (d.cols.indexOf column)
                  ((dictGet m (r.getD (d.cols.indexOf column) Value.vnan)).getD Value.vnan)) }) := by
  constructor
  · intro hex
    simp [repl_with_agg_string, replRows_error d.cols column m d.rows hcol hex]
  · intro hall
    simp [repl_with_agg_string, replRows_ok d.cols column m d.rows hcol hall]

/-- Witness for C5 at concrete inputs: an unmapped value ("q") raises
KeyError; a fully mapped column is rewritten to the group labels. -/
theorem repl_with_agg_string_keyerror_or_total_witness :
    repl_with_agg_string { cols := ["c"], rows := [[Value.vstr "horse"], [Value.vstr "q"]] }
        "c" [(Value.vstr "horse", Value.vstr "animals")] = .error .keyError
    ∧ repl_with_agg_string { cols := ["c"], rows := [[Value.vstr "horse"], [Value.vstr "bush"]] }
        "c" [(Value.vstr "horse", Value.vstr "animals"), (Value.vstr "bush", Value.vstr "plants")]
      = .ok { cols := ["c"],
              rows := [[Value.vstr "horse"], [Value.vstr "bush"]].map (fun r => r.set
                (["c"].indexOf "c")
                ((dictGet [(Value.vstr "horse", Value.vstr "animals"),
                           (Value.vstr "bush", Value.vstr "plants")]
                   (r.getD (["c"].indexOf "c") Value.vnan)).getD Value.vnan)) } :=
  ⟨(repl_with_agg_string_keyerror_or_total
      { cols := ["c"], rows := [[Value.vstr "horse"], [Value.vstr "q"]] } "c"
      [(Value.vstr "horse", Value.vstr "animals")] (by decide)).1
      ⟨[Value.vstr "q"], by decide⟩,
   (repl_with_agg_string_keyerror_or_total
      { cols := ["c"], rows := [[Value.vstr "horse"], [Value.vstr "bush"]] } "c"
      [(Value.vstr "horse", Value.vstr "animals"), (Value.vstr "bush", Value.vstr "plants")]
      (by decide)).2 (by decide)⟩

/-- C7 counterexample: `split_multiple_categorical_vars` is not free of
argument mutation — called with an instruction table whose column labels
are not the canonical pair, it leaves the caller's table renamed in place,
so the post-call state differs from the argument. -/
theorem split_multiple_mutates_instruction_table :
    (split_multiple_categorical_vars { cols := [], rows := [] }
        { cols := ["a", "b"], rows := [] }).2.2
      ≠ ({ cols := ["a", "b"], rows := [] } : SplitInfo) := by
  decide

/-- C7 as amended: the two entry points that take an instruction table
leave their dataset argument unchanged, but assign the canonical column
labels to the instruction table in place; the table argument is therefore
mutated exactly when its labels are not already the canonical pair.  (The
remaining side effect is the unmatched-normalization diagnostic, the log
component of `normalize_data`.) -/
theorem entry_points_mutate_only_instruction_labels (d : Dataset) (si : SplitInfo)
    (ai : AggInfo) (g : String) :
    (split_multiple_categorical_vars d si).2.1 = d
    ∧ (split_multiple_categorical_vars d si).2.2
        = { si with cols := ["variable_name", "values_and_labels"] }
    ∧ ((split_multiple_categorical_vars d si).2.2 ≠ si
        ↔ si.cols ≠ ["variable_name", "values_and_labels"])
    ∧ (aggregate_data d ai g).2.1 = d
    ∧ (aggregate_data d ai g).2.2 = { ai with cols := ["variable", "agg_function"] }
    ∧ ((aggregate_data d ai g).2.2 ≠ ai ↔ ai.cols ≠ ["variable", "agg_function"]) := by
  refine ⟨rfl, rfl, ?_, rfl, rfl, ?_⟩
  · cases si with
    | mk c r => simp [split_multiple_categorical_vars, SplitInfo.mk.injEq, eq_comm]
  · cases ai with
    | mk c r => simp [aggregate_data, AggInfo.mk.injEq, eq_comm]

/-- C4 counterexample: "sum" is outside the recognized set
{mean, median, max, min, dummy, one..six}, yet applying it succeeds — the
unmatched string reaches the pandas `.agg` dispatch, which implements a
`sum` reduction — so an unrecognized name does not always fail, and no
dedicated UnsupportedAggregation error exists. -/
theorem aggregate_col_unrecognized_sum_succeeds :
    "sum" ∉ ["mean", "median", "max", "min", "dummy",
             "one", "two", "three", "four", "five", "six"]
    ∧ aggregate_col
        { cols := ["g", "x"],
          rows := [[Value.vstr "a", Value.vint 1], [Value.vstr "a", Value.vint 2]] }
        "g" "x" "sum"
      = .ok [(Value.vstr "a", Value.vint 3)] :=
  ⟨by decide, rfl⟩

/-- C4 as amended: a function name outside the recognized set is handed as
a string to the pandas `.agg` dispatch; it fails — with a generic
AttributeError, not a dedicated UnsupportedAggregation error — exactly
when pandas implements no aggregation method of that name (names pandas
implements, such as "sum", succeed instead: see the counterexample). -/
theorem aggregate_col_unknown_name_attribute_error (d : Dataset) (g c name : String)
    (h1 : name ∉ ["mean", "median", "max", "min", "dummy",
                  "one", "two", "three", "four", "five", "six"])
    (h2 : pandasNamedAgg name = none)
    (groups : List (Value × List Value)) (hg : groupby d g c = .ok groups) :
    aggregate_col d g c name = .error .attributeError := by
  simp only [List.mem_cons, List.not_mem_nil, or_false, not_or] at h1
  obtain ⟨n1, n2, n3, n4, _, n6, n7, n8, n9, n10, n11⟩ := h1
  have hr : resolveAgg name = none := by
    simp [resolveAgg, n1, n2, n3, n4, n6, n7, n8, n9, n10, n11]
  simp [aggregate_col, hg, hr, h2]

/-- Witness for C4's amended statement at a concrete input: the name "foo"
is unknown to both the source's chain and pandas, and fails with
AttributeError. -/
theorem aggregate_col_unknown_name_attribute_error_witness :
    ("foo" ∉ ["mean", "median", "max", "min", "dummy",
              "one", "two", "three", "four", "five", "six"])
    ∧ pandasNamedAgg "foo" = none
    ∧ aggregate_col
        { cols := ["g", "x"], rows := [[Value.vstr "a", Value.vint 1]] } "g" "x" "foo"
      = .error .attributeError :=
  ⟨by decide, rfl,
   aggregate_col_unknown_name_attribute_error
     { cols := ["g", "x"], rows := [[Value.vstr "a", Value.vint 1]] } "g" "x" "foo"
     (by decide) rfl [(Value.vstr "a", [Value.vint 1])] rfl⟩

/-- First-occurrence deduplication only keeps elements of the input. -/
theorem dedupFirst_go_subset (seen : List Value) (l : List Value) (v : Value)
    (h : v ∈ dedupFirst.go seen l) : v ∈ l := by
  induction l generalizing seen with
  | nil => simp [dedupFirst.go] at h
  | cons x rest ih =>
    by_cases hx : x ∈ seen
    · simp only [dedupFirst.go, if_pos hx] at h
      exact List.mem_cons_of_mem x (ih seen h)
    · simp only [dedupFirst.go, if_neg hx] at h
      rcases List.mem_cons.mp h with rfl | h'
      · exact List.mem_cons_self v rest
      · exact List.mem_cons_of_mem x (ih (x :: seen) h')

/-- Deduplicated values come from the original list. -/
theorem dedupFirst_subset (l : List Value) (v : Value) (h : v ∈ dedupFirst l) : v ∈ l :=
  dedupFirst_go_subset [] l v h

/-- Every group a successful groupby returns is nonempty: its key occurs
in the grouping column, so at least one row carries it. -/
theorem groupby_groups_nonempty (d : Dataset) (g c : String)
    (groups : List (Value × List Value)) (hg : groupby d g c = .ok groups) :
    ∀ p ∈ groups, p.2 ≠ [] := by
  by_cases hgm : g ∈ d.cols
  · by_cases hcm : c ∈ d.cols
    · intro p hp
      rw [groupby, if_pos hgm, if_pos hcm] at hg
      injection hg with hg
      subst hg
      obtain ⟨k, hk, hpk⟩ := List.mem_map.mp hp
      subst hpk
      have hk1 : k ∈ dedupFirst (colValues d g) := (List.mem_filter.mp hk).1
      have hk2 : k ∈ colValues d g := dedupFirst_subset _ _ hk1
      obtain ⟨r, hr, hrk⟩ := List.mem_map.mp hk2
      have hrf : r ∈ d.rows.filter (fun r => r.getD (d.cols.indexOf g) Value.vnan == k) :=
        List.mem_filter.mpr ⟨hr, by simp only [beq_iff_eq]; exact hrk⟩
      simp only [ne_eq, List.map_eq_nil_iff]
      exact fun hnil => by rw [hnil] at hrf; simp at hrf
    · rw [groupby, if_pos hgm, if_neg hcm] at hg; cases hg
  · rw [groupby, if_neg hgm] at hg; cases hg

/-- Composition of the two masked assignments of the binary reducers: with
`n` nonzero, every cell equal to `n` becomes 1 and every other cell
(missing cells included) becomes 0. -/
theorem mask_comp (n : Int) (hn : ¬((0 : Int) = n)) (l : List Value) :
    maskEqToOne n (maskNeToZero n l)
      = l.map (fun v => if eqInt v n then Value.vint 1 else Value.vint 0) := by
  unfold maskEqToOne maskNeToZero
  rw [List.map_map]
  apply List.map_congr_left
  intro v _
  by_cases hv : eqInt v n = true
  · simp [Function.comp, hv]
  · simp only [Bool.not_eq_true] at hv
    have h0 : eqInt (Value.vint 0) n = false := by
      simp only [eqInt, beq_eq_false_iff_ne, ne_eq]
      exact hn
    simp [Function.comp, hv, h0]

/-- Folding the running-maximum step over a 0/1 list yields 1 exactly when
a 1 is present (in the accumulator or the list). -/
theorem foldl_max_binary (vs : List Value) (acc : Value)
    (hacc : acc = Value.vint 0 ∨ acc = Value.vint 1)
    (hvs : ∀ v ∈ vs, v = Value.vint 0 ∨ v = Value.vint 1) :
    vs.foldl (fun acc w => if numLe acc w then w else acc) acc
      = if acc = Value.vint 1 ∨ Value.vint 1 ∈ vs then Value.vint 1 else Value.vint 0 := by
  induction vs generalizing acc with
  | nil => rcases hacc with rfl | rfl <;> simp
  | cons w rest ih =>
    have hw := hvs w (List.mem_cons_self w rest)
    have hrest := fun v hv => hvs v (List.mem_cons_of_mem w hv)
    rw [List.foldl_cons]
    have hstep : (if numLe acc w = true then w else acc) = Value.vint 0
        ∨ (if numLe acc w = true then w else acc) = Value.vint 1 := by
      by_cases hc : numLe acc w = true
      · rw [if_pos hc]; exact hw
      · rw [if_neg hc]; exact hacc
    rw [ih _ hstep hrest]
    rcases hacc with rfl | rfl <;> rcases hw with rfl | rfl <;>
      simp [numLe, List.mem_cons]

/-- One group under a binary reducer: the result is the int 1 when some
cell equals `n` (missing cells never match) and the int 0 otherwise, in
particular on an all-missing group. -/
theorem maxSkipna_mask (n : Int) (hn : ¬((0 : Int) = n)) (l : List Value) (hne : l ≠ []) :
    maxSkipna (maskEqToOne n (maskNeToZero n l))
      = .ok (Value.vint (if l.any (fun v => eqInt v n) then 1 else 0)) := by
  rw [mask_comp n hn l]
  have hbin : ∀ w ∈ l.map (fun v => if eqInt v n then Value.vint 1 else Value.vint 0),
      w = Value.vint 0 ∨ w = Value.vint 1 := by
    intro w hw
    obtain ⟨v, _, hvw⟩ := List.mem_map.mp hw
    by_cases hv : eqInt v n = true <;> simp [hv] at hvw <;> subst hvw <;> simp
  have hnum : (l.map (fun v => if eqInt v n then Value.vint 1 else Value.vint 0)).any
      strOrNone = false := by
    simp only [List.any_eq_false]
    intro w hw
    rcases hbin w hw with rfl | rfl <;> simp [strOrNone]
  have hfilt : (l.map (fun v => if eqInt v n then Value.vint 1 else Value.vint 0)).filter
      isNum = l.map (fun v => if eqInt v n then Value.vint 1 else Value.vint 0) := by
    apply List.filter_eq_self.mpr
    intro w hw
    rcases hbin w hw with rfl | rfl <;> simp [isNum]
  rw [maxSkipna, hnum, if_neg (by simp), hfilt]
  cases hm : l.map (fun v => if eqInt v n then Value.vint 1 else Value.vint 0) with
  | nil => exact absurd (List.map_eq_nil_iff.mp hm) hne
  | cons w ws =>
    have hw0 : w = Value.vint 0 ∨ w = Value.vint 1 := hbin w (by rw [hm]; exact List.mem_cons_self w ws)
    have hws : ∀ v ∈ ws, v = Value.vint 0 ∨ v = Value.vint 1 := by
      intro v hv
      exact hbin v (by rw [hm]; exact List.mem_cons_of_mem w hv)
    show Except.ok (ws.foldl (fun acc w => if numLe acc w = true then w else acc) w)
      = Except.ok (Value.vint (if l.any (fun v => eqInt v n) = true then 1 else 0))
    rw [foldl_max_binary ws w hw0 hws]
    have hmem : (w = Value.vint 1 ∨ Value.vint 1 ∈ ws)
        ↔ Value.vint 1 ∈ l.map (fun v => if eqInt v n then Value.vint 1 else Value.vint 0) := by
      rw [hm, List.mem_cons, eq_comm]
    have hany : Value.vint 1 ∈ l.map (fun v => if eqInt v n then Value.vint 1 else Value.vint 0)
        ↔ l.any (fun v => eqInt v n) = true := by
      simp only [List.mem_map, List.any_eq_true]
      constructor
      · rintro ⟨v, hv, hveq⟩
        refine ⟨v, hv, ?_⟩
        by_cases h : eqInt v n = true
        · exact h
        · simp [h] at hveq
      · rintro ⟨v, hv, hveq⟩
        exact ⟨v, hv, by simp [hveq]⟩
    by_cases hc : l.any (fun v => eqInt v n) = true
    · rw [if_pos (hmem.mpr (hany.mpr hc)), if_pos hc]
    · rw [if_neg (fun hor => hc (hany.mp (hmem.mp hor))), if_neg hc]

/-- Pointwise successful reduction lifts to the whole group list. -/
theorem applyAgg_ok_of (f : List Value → Except PyError Value)
    (out : Value × List Value → Value) (groups : List (Value × List Value))
    (h : ∀ p ∈ groups, f p.2 = .ok (out p)) :
    applyAgg f groups = .ok (groups.map (fun p => (p.1, out p))) := by
  induction groups with
  | nil => rfl
  | cons p rest ih =>
    have hp := h p (List.mem_cons_self p rest)
    have ihr := ih (fun q hq => h q (List.mem_cons_of_mem p hq))
    simp [applyAgg, hp, ihr]

/-- C6: for each aggregation function "one".."six" with cardinal n, a
successful groupby makes `aggregate_col` succeed with, per group, the int
1 when some row of the group has exactly the numeric value n in the
aggregated column and the int 0 otherwise; missing cells never match
(`eqInt` is false on NaN), so an all-missing group yields 0. -/
theorem aggregate_col_one_to_six (name : String) (n : Int)
    (hmem : (name, n) ∈ [("one", (1 : Int)), ("two", 2), ("three", 3),
                         ("four", 4), ("five", 5), ("six", 6)])
    (d : Dataset) (g c : String) (groups : List (Value × List Value))
    (hg : groupby d g c = .ok groups) :
    aggregate_col d g c name
      = .ok (groups.map (fun p => (p.1,
          Value.vint (if p.2.any (fun v => eqInt v n) then 1 else 0)))) := by
  have hne := groupby_groups_nonempty d g c groups hg
  simp only [List.mem_cons, Prod.mk.injEq, List.not_mem_nil, or_false] at hmem
  rcases hmem with ⟨rfl, rfl⟩ | ⟨rfl, rfl⟩ | ⟨rfl, rfl⟩ | ⟨rfl, rfl⟩ | ⟨rfl, rfl⟩ | ⟨rfl, rfl⟩
  · simp only [aggregate_col, hg, exceptBind_ok]
    rw [show resolveAgg "one" = some custom_one from rfl]
    exact applyAgg_ok_of custom_one
      (fun p => Value.vint (if p.2.any (fun v => eqInt v 1) then 1 else 0)) groups
      (fun p hp => maxSkipna_mask 1 (by decide) p.2 (hne p hp))
  · simp only [aggregate_col, hg, exceptBind_ok]
    rw [show resolveAgg "two" = some custom_two from rfl]
    exact applyAgg_ok_of custom_two
      (fun p => Value.vint (if p.2.any (fun v => eqInt v 2) then 1 else 0)) groups
      (fun p hp => maxSkipna_mask 2 (by decide) p.2 (hne p hp))
  · simp only [aggregate_col, hg, exceptBind_ok]
    rw [show resolveAgg "three" = some custom_three from rfl]
    exact applyAgg_ok_of custom_three
      (fun p => Value.vint (if p.2.any (fun v => eqInt v 3) then 1 else 0)) groups
      (fun p hp => maxSkipna_mask 3 (by decide) p.2 (hne p hp))
  · simp only [aggregate_col, hg, exceptBind_ok]
    rw [show resolveAgg "four" = some custom_four from rfl]
    exact applyAgg_ok_of custom_four
      (fun p => Value.vint (if p.2.any (fun v => eqInt v 4) then 1 else 0)) groups
      (fun p hp => maxSkipna_mask 4 (by decide) p.2 (hne p hp))
  · simp only [aggregate_col, hg, exceptBind_ok]
    rw [show resolveAgg "five" = some custom_five from rfl]
    exact applyAgg_ok_of custom_five
      (fun p => Value.vint (if p.2.any (fun v => eqInt v 5) then 1 else 0)) groups
      (fun p hp => maxSkipna_mask 5 (by decide) p.2 (hne p hp))
  · simp only [aggregate_col, hg, exceptBind_ok]
    rw [show resolveAgg "six" = some custom_six from rfl]
    exact applyAgg_ok_of custom_six
      (fun p => Value.vint (if p.2.any (fun v => eqInt v 6) then 1 else 0)) groups
      (fun p hp => maxSkipna_mask 6 (by decide) p.2 (hne p hp))

/-- Witness for C6 at the spec's scenario shape: grouping owl/hawk rows by
species and aggregating seen with "three" yields 1 for each group that
contains a 3. -/
theorem aggregate_col_one_to_six_witness :
    (("three", (3 : Int)) ∈ [("one", (1 : Int)), ("two", 2), ("three", 3),
                             ("four", 4), ("five", 5), ("six", 6)])
    ∧ aggregate_col
        { cols := ["species", "seen"],
          rows := [[Value.vstr "owl", Value.vint 1], [Value.vstr "owl", Value.vint 3],
                   [Value.vstr "hawk", Value.vint 3], [Value.vstr "crow", Value.vnan]] }
        "species" "seen" "three"
      = .ok ([(Value.vstr "owl", [Value.vint 1, Value.vint 3]),
              (Value.vstr "hawk", [Value.vint 3]),
              (Value.vstr "crow", [Value.vnan])].map (fun p => (p.1,
          Value.vint (if p.2.any (fun v => eqInt v 3) then 1 else 0)))) :=
  ⟨by decide,
   aggregate_col_one_to_six "three" 3 (by decide)
     { cols := ["species", "seen"],
       rows := [[Value.vstr "owl", Value.vint 1], [Value.vstr "owl", Value.vint 3],
                [Value.vstr "hawk", Value.vint 3], [Value.vstr "crow", Value.vnan]] }
     "species" "seen"
     [(Value.vstr "owl", [Value.vint 1, Value.vint 3]),
      (Value.vstr "hawk", [Value.vint 3]),
      (Value.vstr "crow", [Value.vnan])] rfl⟩

/-- The group keys a successful groupby returns are the distinct
non-missing values of the grouping column, in order. -/
theorem groupby_keys (d : Dataset) (g c : String) (groups : List (Value × List Value))
    (hg : groupby d g c = .ok groups) :
    groups.map Prod.fst = (dedupFirst (colValues d g)).filter (fun v => !missingKey v) := by
  by_cases hgm : g ∈ d.cols
  · by_cases hcm : c ∈ d.cols
    · rw [groupby, if_pos hgm, if_pos hcm] at hg
      injection hg with hg
      subst hg
      rw [List.map_map]
      exact List.map_id _
    · rw [groupby, if_pos hgm, if_neg hcm] at hg; cases hg
  · rw [groupby, if_neg hgm] at hg; cases hg

/-- Reducing the groups preserves their keys. -/
theorem applyAgg_keys (f : List Value → Except PyError Value)
    (groups : List (Value × List Value)) (right : List (Value × Value))
    (h : applyAgg f groups = .ok right) :
    right.map Prod.fst = groups.map Prod.fst := by
  induction groups generalizing right with
  | nil =>
    simp only [applyAgg] at h
    injection h with h
    subst h
    rfl
  | cons p rest ih =>
    simp only [applyAgg] at h
    cases hv : f p.2 with
    | error e => rw [hv] at h; cases h
    | ok v =>
      rw [hv, exceptBind_ok] at h
      cases hrest : applyAgg f rest with
      | error e => rw [hrest] at h; cases h
      | ok rest' =>
        rw [hrest, exceptBind_ok] at h
        injection h with h
        subst h
        simp [ih rest' hrest]

/-- The keys of a successful `aggregate_col` result are the distinct
non-missing values of the grouping column, in order. -/
theorem aggregate_col_keys (d : Dataset) (g c name : String) (right : List (Value × Value))
    (h : aggregate_col d g c name = .ok right) :
    right.map Prod.fst = (dedupFirst (colValues d g)).filter (fun v => !missingKey v) := by
  rw [aggregate_col] at h
  cases hg : groupby d g c with
  | error e => rw [hg] at h; cases h
  | ok groups =>
    rw [hg, exceptBind_ok] at h
    rw [← groupby_keys d g c groups hg]
    cases hres : resolveAgg name with
    | some f =>
      rw [hres] at h
      exact applyAgg_keys f groups right h
    | none =>
      rw [hres] at h
      cases hpan : pandasNamedAgg name with
      | some f =>
        rw [hpan] at h
        exact applyAgg_keys f groups right h
      | none => rw [hpan] at h; cases h

/-- Keys surviving an inner merge are the left keys that occur on the
right, in left order. -/
theorem mergeInner_keys (acc : List (Value × List Value)) (right : List (Value × Value)) :
    (mergeInner acc right).map Prod.fst
      = (acc.map Prod.fst).filter (fun k => right.any (fun q => q.1 == k)) := by
  unfold mergeInner
  induction acc with
  | nil => rfl
  | cons p rest ih =>
    cases hf : right.find? (fun q => q.1 == p.1) with
    | none =>
      have hna : right.any (fun q => q.1 == p.1) = false := by
        rw [← Bool.not_eq_true, List.any_eq_true]
        rintro ⟨q, hq, hqp⟩
        have h1 := List.find?_eq_none.mp hf q hq
        exact h1 hqp
      simp [hf, ih, hna, List.filter_cons]
    | some q =>
      have hna : right.any (fun q => q.1 == p.1) = true := by
        have h1 := List.find?_some hf
        exact List.any_eq_true.mpr ⟨q, List.mem_of_find?_eq_some hf, h1⟩
      simp [hf, ih, hna, List.filter_cons]

/-- Membership form of the inner-merge survival condition. -/
theorem any_fst_beq (right : List (Value × Value)) (k : Value) :
    (right.any (fun q => q.1 == k)) = true ↔ k ∈ right.map Prod.fst := by
  simp [List.any_eq_true, beq_iff_eq]

/-- The merge loop keeps the key list equal to the distinct non-missing
grouping values once the accumulator already has exactly those keys. -/
theorem aggLoop_keys (dat : Dataset) (aggvar : String) (instrs : List (String × String))
    (acc R : List (Value × List Value))
    (hacc : acc.map Prod.fst
      = (dedupFirst (colValues dat aggvar)).filter (fun v => !missingKey v))
    (h : aggLoop dat aggvar acc instrs = .ok R) :
    R.map Prod.fst = (dedupFirst (colValues dat aggvar)).filter (fun v => !missingKey v) := by
  induction instrs generalizing acc with
  | nil =>
    simp only [aggLoop] at h
    injection h with h
    subst h
    exact hacc
  | cons p rest ih =>
    simp only [aggLoop] at h
    cases hcol : aggregate_col dat aggvar p.1 p.2 with
    | error e => rw [hcol] at h; cases h
    | ok right =>
      rw [hcol, exceptBind_ok] at h
      refine ih (mergeInner acc right) ?_ h
      rw [mergeInner_keys, hacc]
      have hrk := aggregate_col_keys dat aggvar p.1 p.2 right hcol
      apply List.filter_eq_self.mpr
      intro k hk
      exact (any_fst_beq right k).mpr (by rw [hrk]; exact hk)

/-- C3 counterexample: with one instruction, `aggregate_data` on a dataset
whose grouping column holds the missing marker NaN and the value "a"
returns a single row (for "a"), although the input has two distinct
grouping values — the missing-marker group is dropped by the
groupby/inner-merge pipeline, refuting one-row-per-distinct-value
including the missing marker. -/
theorem aggregate_data_drops_missing_group :
    (aggregate_data
        { cols := ["g", "x"],
          rows := [[Value.vnan, Value.vint 1], [Value.vstr "a", Value.vint 2]] }
        { cols := ["variable", "agg_function"], rows := [("x", "max")] } "g").1
      = .ok [(Value.vstr "a", [Value.vint 2])]
    ∧ dedupFirst (colValues
        { cols := ["g", "x"],
          rows := [[Value.vnan, Value.vint 1], [Value.vstr "a", Value.vint 2]] } "g")
      = [Value.vnan, Value.vstr "a"]
    ∧ [(Value.vstr "a", [Value.vint 2])].map Prod.fst
        ≠ dedupFirst (colValues
            { cols := ["g", "x"],
              rows := [[Value.vnan, Value.vint 1], [Value.vstr "a", Value.vint 2]] } "g") :=
  ⟨rfl, rfl, by decide⟩

/-- C3 as amended: whenever `aggregate_data` succeeds, its output has
exactly one row per distinct NON-missing value of the grouping column of
the (dummy-expanded) dataset, in first-occurrence order, provided the
dummy-expanded instruction list is nonempty; a missing-marker grouping
value keeps its row only when that instruction list is empty. -/
theorem aggregate_data_one_row_per_group (d : Dataset) (ai : AggInfo) (aggvar : String)
    (dat : Dataset) (instrs : List (String × String)) (keycol : List Value)
    (R : List (Value × List Value))
    (hde : dummyExpand d ai.rows = .ok (dat, instrs))
    (hkc : getCol dat aggvar = .ok keycol)
    (hR : (aggregate_data d ai aggvar).1 = .ok R) :
    R.map Prod.fst = if instrs.isEmpty then dedupFirst keycol
      else (dedupFirst keycol).filter (fun v => !missingKey v) := by
  have hkeycol : keycol = colValues dat aggvar := by
    by_cases hm : aggvar ∈ dat.cols
    · rw [getCol, if_pos hm] at hkc; injection hkc with hkc; exact hkc.symm
    · rw [getCol, if_neg hm] at hkc; cases hkc
  simp only [aggregate_data, hde, hkc, exceptBind_ok] at hR
  cases instrs with
  | nil =>
    simp only [aggLoop] at hR
    injection hR with hR
    subst hR
    rw [List.map_map, List.isEmpty_nil, if_pos rfl]
    exact List.map_id _
  | cons p rest =>
    simp only [aggLoop] at hR
    cases hcol : aggregate_col dat aggvar p.1 p.2 with
    | error e => rw [hcol] at hR; cases hR
    | ok right =>
      rw [hcol, exceptBind_ok] at hR
      have hinit : ((dedupFirst keycol).map (fun k => (k, ([] : List Value)))).map Prod.fst
          = dedupFirst keycol := by
        rw [List.map_map]
        exact List.map_id _
      have hrk := aggregate_col_keys dat aggvar p.1 p.2 right hcol
      have hmerge : (mergeInner ((dedupFirst keycol).map (fun k => (k, []))) right).map
          Prod.fst = (dedupFirst (colValues dat aggvar)).filter (fun v => !missingKey v) := by
        rw [mergeInner_keys, hinit, hkeycol]
        apply List.filter_congr
        intro k hk
        cases hmk : missingKey k with
        | true =>
          simp only [Bool.not_true]
          rw [← Bool.not_eq_true, any_fst_beq right k, hrk]
          intro hmem
          have := (List.mem_filter.mp hmem).2
          rw [hmk] at this
          cases this
        | false =>
          simp only [Bool.not_false]
          rw [any_fst_beq right k, hrk]
          exact List.mem_filter.mpr ⟨hk, by rw [hmk]; rfl⟩
      have hfin := aggLoop_keys dat aggvar rest _ R hmerge hR
      rw [hfin, hkeycol]
      rfl

/-- Witness for C3's amended statement at a concrete input: one "max"
instruction over a dataset with grouping values "a" and NaN keeps exactly
the non-missing group. -/
theorem aggregate_data_one_row_per_group_witness :
    (aggregate_data
        { cols := ["g", "x"],
          rows := [[Value.vstr "a", Value.vint 1], [Value.vnan, Value.vint 2]] }
        { cols := ["variable", "agg_function"], rows := [("x", "max")] } "g").1
      = .ok [(Value.vstr "a", [Value.vint 1])]
    ∧ ([(Value.vstr "a", [Value.vint 1])].map Prod.fst
        = if ([("x", "max")] : List (String × String)).isEmpty
            then dedupFirst [Value.vstr "a", Value.vnan]
            else (dedupFirst [Value.vstr "a", Value.vnan]).filter (fun v => !missingKey v)) :=
  ⟨rfl,
   aggregate_data_one_row_per_group
     { cols := ["g", "x"],
       rows := [[Value.vstr "a", Value.vint 1], [Value.vnan, Value.vint 2]] }
     { cols := ["variable", "agg_function"], rows := [("x", "max")] } "g"
     { cols := ["g", "x"],
       rows := [[Value.vstr "a", Value.vint 1], [Value.vnan, Value.vint 2]] }
     [("x", "max")] [Value.vstr "a", Value.vnan] [(Value.vstr "a", [Value.vint 1])]
     rfl rfl rfl⟩

end Qualprep
